import Mathlib

/-!
# WCDB repair: the SQLite-backed assembler

A shallow embedding of `src/repair/sqlite/SQLiteAssembler.cpp`.

The assembler is a C++ class deriving from `SQLiteBase`, whose member functions
(`prepare`, `step`, `finalize`, `execute`, the transaction helpers, `close`)
and the `sqlite3_*` entry points it calls are not part of the embedded source.
They are taken as a parameter: a record `SQLiteBase σ` of operations over an
abstract engine state `σ`.  Every member function of `SQLiteAssembler` is a
Lean function that threads the assembler's fields and the engine state
explicitly.

Three concrete engines are given:
* `recorder`, whose state is the list of calls issued so far and whose answers
  come from an arbitrary function of that history (any deterministic engine
  started in a given state answers as some such function does),
* `seqEngine`, a small model of the `sqlite_sequence` table, and
* `txnEngine`, a small model of the marker table inside the milestone
  transaction.

Sequences of calls of the member functions are lists of `Op`, run by `runOps`.

The table-info statement is stepped in a `while` loop in the source; its
result set is taken to be finite, so the engine hands over the rows of the
loop at once (`stepRows`) and the loop is a recursion over them.
-/

namespace WCDB.Repair

/-! ## Data model -/

/-- A non-null `sqlite3_stmt *`: an engine-chosen identity together with the
SQL text handed to `prepare`. -/
structure Stmt where
  id : Nat
  sql : String
  deriving DecidableEq, Repr

/-- The value handed to one `sqlite3_bind_*` call. -/
inductive Binding where
  /-- Call `sqlite3_bind_int64(stmt, index, v)` -/
  | int64 (v : Int)
  /-- Call `sqlite3_bind_double(stmt, index, d)`; the double is carried as its bit pattern -/
  | double (bits : Nat)
  /-- Call `sqlite3_bind_text(stmt, index, bytes, n, SQLITE_TRANSIENT)` -/
  | text (bytes : List UInt8) (n : Int)
  /-- Call `sqlite3_bind_text(stmt, index, s.c_str(), -1, SQLITE_TRANSIENT)` -/
  | cstr (s : String)
  /-- Call `sqlite3_bind_blob(stmt, index, buffer, n, SQLITE_TRANSIENT)` -/
  | blob (bytes : List UInt8) (n : Int)
  /-- Call `sqlite3_bind_null(stmt, index)` -/
  | null
  deriving DecidableEq, Repr

/-- Modelled from the spec: `Cell.hpp` is not part of the embedded source.  One
value of a cell, "a tagged union over Null, Integer(i64), Real(f64),
Text(bytes + length), Blob(bytes + length)".  `Text` carries the pair returned
by `Cell::textValue` (an `int` length and the bytes), `BLOB` the `Data`
returned by `Cell::blobValue`, whose `size()` is the length of the list. -/
inductive Value where
  | Integer (v : Int)
  | Text (length : Int) (bytes : List UInt8)
  | BLOB (data : List UInt8)
  | Real (bits : Nat)
  | Null
  deriving DecidableEq, Repr

/-- Modelled from the spec: `Cell.hpp` is not part of the embedded source.  A
recovered row: `getRowID()` and the values at indices `0 .. getCount() - 1`. -/
structure Cell where
  rowID : Int
  values : List Value
  deriving DecidableEq, Repr

/-- One row of `PRAGMA table_info(t)`.  The assembler reads column 1 (`name`,
through `sqlite3_column_text`, which may be the null pointer) and column 5
(`pk`, through `sqlite3_column_int`); column 2 is the declared type. -/
structure TableInfoRow where
  name : Option String
  decltype : String
  pk : Int
  deriving DecidableEq, Repr

/-- What stepping the table-info statement yields: the rows for which
`step(stmt, done)` returned true with `done` false, then the value of `done`
left by the step that ended the loop. -/
structure TableInfo where
  rows : List TableInfoRow
  done : Bool
  deriving DecidableEq, Repr

/-- The conversion `(int) n` of an unsigned size to a 32-bit signed integer. -/
def toInt32 (n : Nat) : Int :=
  ((n : Int) + 2 ^ 31) % 2 ^ 32 - 2 ^ 31

/-! ## The engine interface -/

/-- The operations of the base class `SQLiteBase` and of the `sqlite3` API that
`SQLiteAssembler.cpp` calls, over an engine state `σ` (the connection handle,
the latched error, the database itself).  A null statement pointer is `none`. -/
structure SQLiteBase (σ : Type) where
  /-- Member `SQLiteBase::open()` -/
  openBase : σ → Bool × σ
  /-- Member `SQLiteBase::close()` -/
  closeBase : σ → σ
  /-- Member `prepare(sql)`: the statement, or `none` for `nullptr` -/
  prepare : String → σ → Option Stmt × σ
  /-- Member `step(stmt)` -/
  step : Option Stmt → σ → Bool × σ
  /-- The engine side of the loop `while (step(stmt, done) && !done)`, with the
  values of columns 1 and 5 of every row -/
  stepRows : Stmt → σ → TableInfo × σ
  /-- Member `finalize(&stmt)` -/
  finalize : Option Stmt → σ → σ
  /-- Members `execute(sql)` and `execute(sql, code)`; `none` when the second argument is omitted -/
  execute : String → Option Int → σ → Bool × σ
  /-- Member `lazyCommitOrRollbackTransaction()` -/
  lazyCommitOrRollbackTransaction : σ → Bool × σ
  /-- Member `lazyBeginTransactionImmediate()` -/
  lazyBeginTransactionImmediate : σ → Bool × σ
  /-- Call `sqlite3_bind_*(stmt, index, …)`; the return code is discarded by the callers -/
  bind : Option Stmt → Int → Binding → σ → σ
  /-- Call `sqlite3_reset(stmt)` -/
  reset : Option Stmt → σ → σ
  /-- Call `sqlite3_changes(m_handle)` -/
  changes : σ → Int

/-- The fields of `SQLiteAssembler` together with the state of its base. -/
structure SQLiteAssembler (σ : Type) where
  m_table : String
  m_cellSTMT : Option Stmt
  m_primary : Int
  m_duplicated : Bool
  base : σ

/-- Embeds `SQLiteAssembler::SQLiteAssembler()` -/
def SQLiteAssembler.new {σ : Type} (s : σ) : SQLiteAssembler σ :=
  { m_table := "", m_cellSTMT := none, m_primary := -1, m_duplicated := false, base := s }

/-! ## Schema introspection -/

/-- The body of the `while` loop of `getColumnNames`, run over the rows the
engine yields; the accumulator is `(columns, primary, maxpk)`. -/
def getColumnNamesLoop : List TableInfoRow → List String × Int × Int → List String × Int × Int
  | [], acc => acc
  | r :: rs, acc =>
    let columns := acc.1 ++ [r.name.getD ""]
    let maxpk := max r.pk acc.2.2
    let primary := if r.pk = 1 then toInt32 columns.length - 1 else acc.2.1
    getColumnNamesLoop rs (columns, primary, maxpk)

/-- Embeds `SQLiteAssembler::getColumnNames` -/
def getColumnNames {σ : Type} (E : SQLiteBase σ) (tableName : String) (a : SQLiteAssembler σ) :
    (Bool × List String) × SQLiteAssembler σ :=
  let p := E.prepare ("PRAGMA table_info(" ++ tableName ++ ")") a.base
  match p.1 with
  | none => ((false, []), { a with base := p.2 })
  | some stmt =>
    let r := E.stepRows stmt p.2
    let acc := getColumnNamesLoop r.1.rows ([], -1, 0)
    let s := E.finalize (some stmt) r.2
    if r.1.done then
      ((true, acc.1), { a with m_primary := if acc.2.2 = 1 then acc.2.1 else -1, base := s })
    else
      ((false, []), { a with base := s })

/-- Embeds `SQLiteAssembler::getAssembleSQL` -/
def getAssembleSQL {σ : Type} (E : SQLiteBase σ) (tableName : String) (a : SQLiteAssembler σ) :
    (Bool × String) × SQLiteAssembler σ :=
  let r := getColumnNames E tableName a
  if r.1.1 = false then ((false, ""), r.2)
  else
    let firstHalf :=
      (if r.2.m_duplicated = false then "INSERT INTO " else "INSERT OR IGNORE INTO ")
        ++ tableName ++ "(rowid"
    let lastHalf := ") VALUES(?"
    let halves := r.1.2.foldl (fun h columnName => (h.1 ++ ", " ++ columnName, h.2 ++ ", ?"))
      (firstHalf, lastHalf)
    ((true, halves.1 ++ (halves.2 ++ ")")), r.2)

/-- Embeds `SQLiteAssembler::lazyPrepareCell`.  The `WCTInnerAssert(!m_table.empty())`
is a debug assertion and does not branch. -/
def lazyPrepareCell {σ : Type} (E : SQLiteBase σ) (a : SQLiteAssembler σ) :
    Bool × SQLiteAssembler σ :=
  match a.m_cellSTMT with
  | none =>
    let r := getAssembleSQL E a.m_table a
    if r.1.1 = false then (false, r.2)
    else
      let p := E.prepare r.1.2 r.2.base
      (p.1.isSome, { r.2 with m_cellSTMT := p.1, base := p.2 })
  | some _ => (true, a)

/-! ## Cells -/

/-- One iteration of the `for` loop of `assembleCell`: the `switch` on
`cell.getValueType(i)` with `bindIndex = i + 2`. -/
def bindValue {σ : Type} (E : SQLiteBase σ) (stmt : Option Stmt) (m_primary rowID : Int)
    (i : Int) (v : Value) (s : σ) : σ :=
  let bindIndex := i + 2
  match v with
  | .Integer x => E.bind stmt bindIndex (.int64 x) s
  | .Text n bytes => E.bind stmt bindIndex (.text bytes n) s
  | .BLOB data => E.bind stmt bindIndex (.blob data (toInt32 data.length)) s
  | .Real d => E.bind stmt bindIndex (.double d) s
  | .Null =>
    if i = m_primary then E.bind stmt bindIndex (.int64 rowID) s
    else E.bind stmt bindIndex .null s

/-- The `for (int i = 0; i < cell.getCount(); ++i)` loop of `assembleCell`,
entered at index `i` with the values from `i` on. -/
def bindLoop {σ : Type} (E : SQLiteBase σ) (stmt : Option Stmt) (m_primary rowID : Int) :
    List Value → Int → σ → σ
  | [], _, s => s
  | v :: vs, i, s => bindLoop E stmt m_primary rowID vs (i + 1) (bindValue E stmt m_primary rowID i v s)

/-- Embeds `SQLiteAssembler::assembleCell` -/
def assembleCell {σ : Type} (E : SQLiteBase σ) (cell : Cell) (a : SQLiteAssembler σ) :
    Bool × SQLiteAssembler σ :=
  let p := lazyPrepareCell E a
  if p.1 = false then (false, p.2)
  else
    let s1 := E.bind p.2.m_cellSTMT 1 (.int64 cell.rowID) p.2.base
    let s2 := bindLoop E p.2.m_cellSTMT p.2.m_primary cell.rowID cell.values 0 s1
    let r := E.step p.2.m_cellSTMT s2
    let s3 := E.reset p.2.m_cellSTMT r.2
    (r.1, { p.2 with base := s3 })

/-! ## Lifecycle, tables, milestones -/

/-- Embeds `SQLiteAssembler::markSequenceAsAssembled` -/
def markSequenceAsAssembled {σ : Type} (E : SQLiteBase σ) (s : σ) : Bool × σ :=
  E.execute "DROP TABLE IF EXISTS wcdb_dummy_sqlite_sequence" none s

/-- Embeds `SQLiteAssembler::close`.  The `WCTInnerAssert(m_cellSTMT == nullptr)` is a
debug assertion and does not branch. -/
def close {σ : Type} (E : SQLiteBase σ) (a : SQLiteAssembler σ) : SQLiteAssembler σ :=
  { a with base := E.closeBase a.base }

/-- Modelled from the spec: `SQLiteBase::finalize(void **)` is not part of the
embedded source; it "finalizes any open statement" and leaves the caller's
pointer null.  This is `finalize(&m_cellSTMT)`. -/
def finalizeCell {σ : Type} (E : SQLiteBase σ) (a : SQLiteAssembler σ) : SQLiteAssembler σ :=
  { a with m_cellSTMT := none, base := E.finalize a.m_cellSTMT a.base }

/-- Embeds `SQLiteAssembler::markAsAssembled` -/
def markAsAssembled {σ : Type} (E : SQLiteBase σ) (a : SQLiteAssembler σ) :
    Bool × SQLiteAssembler σ :=
  let a1 := finalizeCell E { a with m_table := "" }
  let d := markSequenceAsAssembled E a1.base
  let c := E.lazyCommitOrRollbackTransaction d.2
  let result := c.1 && d.1
  (result, close E { a1 with base := c.2 })

/-- Embeds `SQLiteAssembler::markAsMilestone` -/
def markAsMilestone {σ : Type} (E : SQLiteBase σ) (a : SQLiteAssembler σ) :
    Bool × SQLiteAssembler σ :=
  let c := E.lazyCommitOrRollbackTransaction a.base
  if c.1 = false then (false, { a with base := c.2 })
  else
    let b := E.lazyBeginTransactionImmediate c.2
    (b.1, { a with base := b.2 })

/-- Embeds `SQLiteAssembler::markAsDuplicated` -/
def markAsDuplicated {σ : Type} (duplicated : Bool) (a : SQLiteAssembler σ) : SQLiteAssembler σ :=
  { a with m_duplicated := duplicated }

/-! ## Sequences -/

/-- Embeds `SQLiteAssembler::updateSequence`; the result is `((succeed, updated), state)`.
The `WCTInnerAssert(changes <= 1)` is a debug assertion and does not branch. -/
def updateSequence {σ : Type} (E : SQLiteBase σ) (tableName : String) (sequence : Int) (s : σ) :
    (Bool × Bool) × σ :=
  let p := E.prepare "UPDATE sqlite_sequence SET seq = ?1 WHERE name = ?2" s
  let s1 := E.bind p.1 1 (.int64 sequence) p.2
  let s2 := E.bind p.1 2 (.cstr tableName) s1
  let r := E.step p.1 s2
  let s3 := E.finalize p.1 r.2
  if r.1 = false then ((false, false), s3)
  else ((true, decide (E.changes s3 > 0)), s3)

/-- Embeds `SQLiteAssembler::insertSequence` -/
def insertSequence {σ : Type} (E : SQLiteBase σ) (tableName : String) (sequence : Int) (s : σ) :
    Bool × σ :=
  let p := E.prepare "INSERT INTO sqlite_sequence(name, seq) VALUES(?1, ?2)" s
  let s1 := E.bind p.1 1 (.cstr tableName) p.2
  let s2 := E.bind p.1 2 (.int64 sequence) s1
  let r := E.step p.1 s2
  (r.1, E.finalize p.1 r.2)

/-- Embeds `SQLiteAssembler::assembleSequence` -/
def assembleSequence {σ : Type} (E : SQLiteBase σ) (tableName : String) (sequence : Int)
    (a : SQLiteAssembler σ) : Bool × SQLiteAssembler σ :=
  if sequence ≤ 0 then (true, a)
  else
    let u := updateSequence E tableName sequence a.base
    if u.1.1 = false then (false, { a with base := u.2 })
    else if u.1.2 then (true, { a with base := u.2 })
    else
      let i := insertSequence E tableName sequence u.2
      (i.1, { a with base := i.2 })

/-! ## The recording engine -/

/-- A call into the engine, as recorded by `recorder`. -/
inductive Call where
  | openBase
  | closeBase
  | prepare (sql : String)
  | step (stmt : Option Stmt)
  | stepRows (stmt : Stmt)
  | finalize (stmt : Option Stmt)
  | execute (sql : String) (code : Option Int)
  | lazyCommitOrRollbackTransaction
  | lazyBeginTransactionImmediate
  | bind (stmt : Option Stmt) (index : Int) (value : Binding)
  | reset (stmt : Option Stmt)
  deriving DecidableEq, Repr

/-- The answers of an engine, each a function of the calls issued before. -/
structure Oracle where
  openOk : List Call → Bool
  prepareId : List Call → String → Option Nat
  stepOk : List Call → Option Stmt → Bool
  tableInfo : List Call → Stmt → TableInfo
  executeOk : List Call → String → Option Int → Bool
  commitOk : List Call → Bool
  beginOk : List Call → Bool
  changes : List Call → Int

/-- The engine that records every call, in order, and answers from the oracle.
A statement returned by `prepare` carries the SQL text it was prepared from. -/
def recorder (o : Oracle) : SQLiteBase (List Call) where
  openBase := fun log => (o.openOk log, log ++ [.openBase])
  closeBase := fun log => log ++ [.closeBase]
  prepare := fun sql log =>
    ((o.prepareId log sql).map (fun n => { id := n, sql := sql }), log ++ [.prepare sql])
  step := fun stmt log => (o.stepOk log stmt, log ++ [.step stmt])
  stepRows := fun stmt log => (o.tableInfo log stmt, log ++ [.stepRows stmt])
  finalize := fun stmt log => log ++ [.finalize stmt]
  execute := fun sql code log => (o.executeOk log sql code, log ++ [.execute sql code])
  lazyCommitOrRollbackTransaction := fun log =>
    (o.commitOk log, log ++ [.lazyCommitOrRollbackTransaction])
  lazyBeginTransactionImmediate := fun log =>
    (o.beginOk log, log ++ [.lazyBeginTransactionImmediate])
  bind := fun stmt index value log => log ++ [.bind stmt index value]
  reset := fun stmt log => log ++ [.reset stmt]
  changes := fun log => o.changes log

/-- An oracle under which every call succeeds, `PRAGMA table_info` yields the
given rows and then `SQLITE_DONE`, and `sqlite3_changes` reports `changes`. -/
def Oracle.succeeding (rows : List TableInfoRow) (changes : Int) : Oracle where
  openOk := fun _ => true
  prepareId := fun log _ => some log.length
  stepOk := fun _ _ => true
  tableInfo := fun _ _ => { rows := rows, done := true }
  executeOk := fun _ _ _ => true
  commitOk := fun _ => true
  beginOk := fun _ => true
  changes := fun _ => changes

/-! ## Spec-side definitions and sample inputs -/

/-- The insert template in the spec's words: `INSERT [OR IGNORE] INTO
t(rowid, c1, …, cN) VALUES(?, ?, …, ?)` with `N + 1` placeholders. -/
def specInsertSQL (duplicated : Bool) (t : String) (cols : List String) : String :=
  (if duplicated then "INSERT OR IGNORE INTO " else "INSERT INTO ") ++ t ++ "("
    ++ ", ".intercalate ("rowid" :: cols) ++ ") VALUES("
    ++ ", ".intercalate (List.replicate (cols.length + 1) "?") ++ ")"

/-- The column names the assembler takes from the rows of `PRAGMA table_info`. -/
def columnNamesOf (rows : List TableInfoRow) : List String :=
  rows.map (fun r => r.name.getD "")

/-- The value `getColumnNames` assigns to `m_primary` after the loop has run
over `rows`: `maxpk == 1 ? primary : -1`. -/
def introspectedPrimary (rows : List TableInfoRow) : Int :=
  if (getColumnNamesLoop rows ([], -1, 0)).2.2 = 1
  then (getColumnNamesLoop rows ([], -1, 0)).2.1 else -1

/-- A value bound as itself: the binding protocol of the spec without the
primary-key substitution. -/
def plainBinding : Value → Binding
  | .Integer v => .int64 v
  | .Real d => .double d
  | .Text n bytes => .text bytes n
  | .BLOB data => .blob data data.length
  | .Null => .null

/-- The binding protocol in the spec's words, for the value at index `i` of a
cell with row id `rowID` under primary index `primary`: Integer, Real, Text
and Blob are bound as themselves (same bytes, same length); Null is bound as
the row id when `i == primary_index` and as SQL NULL otherwise. -/
def specBinding (rowID primary : Int) (i : Nat) : Value → Binding
  | .Integer v => .int64 v
  | .Real d => .double d
  | .Text n bytes => .text bytes n
  | .BLOB data => .blob data data.length
  | .Null => if (i : Int) = primary then .int64 rowID else .null

/-- The bind calls the spec prescribes for one cell: parameter 1 is the row
id, parameter `i + 2` is `specBinding` of the value at index `i`. -/
def specBindCalls (stmt : Option Stmt) (primary : Int) (cell : Cell) : List Call :=
  Call.bind stmt 1 (.int64 cell.rowID) ::
    cell.values.enum.map
      (fun iv => Call.bind stmt ((iv.1 : Int) + 2) (specBinding cell.rowID primary iv.1 iv.2))

/-- Every blob of the cell is shorter than `2 ^ 31` bytes, so that
`(int) data.size()` is its size (the engine stores no longer value). -/
def Cell.blobsFit (cell : Cell) : Bool :=
  cell.values.all (fun v =>
    match v with
    | .BLOB data => decide (data.length < 2 ^ 31)
    | _ => true)

/-- Sample: `CREATE TABLE t(id INTEGER PRIMARY KEY, v REAL)`. -/
def sampleRowidAlias : List TableInfoRow :=
  [{ name := some "id", decltype := "INTEGER", pk := 1 },
   { name := some "v", decltype := "REAL", pk := 0 }]

/-- Sample: `CREATE TABLE t(a INT, b INT, v TEXT, PRIMARY KEY(a, b))`. -/
def sampleComposite : List TableInfoRow :=
  [{ name := some "a", decltype := "INT", pk := 1 },
   { name := some "b", decltype := "INT", pk := 2 },
   { name := some "v", decltype := "TEXT", pk := 0 }]

/-- Sample: an assembler over the recording engine, with table `t` declared
and no statement prepared yet. -/
def sampleAssembler : SQLiteAssembler (List Call) :=
  { SQLiteAssembler.new [] with m_table := "t" }

/-- Sample: the cell `(row_id = 42, [Null, Real 3.5])`; the double is given
by its bit pattern. -/
def sampleCell : Cell :=
  { rowID := 42, values := [.Null, .Real 0x400C000000000000] }

/-! ## A model of the sequence table -/

/-- State of `seqEngine`: the rows `(name, seq)` of `sqlite_sequence`, the
parameters bound to the statement in hand (latest first), the value of
`sqlite3_changes`, and a script of injected failures: the `clock`-th call of
`prepare` or `step` fails when `fault clock` is true. -/
structure SeqDb where
  rows : List (Binding × Binding)
  params : List (Int × Binding)
  changes : Int
  fault : Nat → Bool
  clock : Nat

/-- Whether the script makes the next `prepare` or `step` fail. -/
def SeqDb.fails (s : SeqDb) : Bool :=
  s.fault s.clock

/-- The state once the next flag of the script is consumed. -/
def SeqDb.next (s : SeqDb) : SeqDb :=
  { s with clock := s.clock + 1 }

/-- The value bound to parameter `index`, SQL NULL when it was never bound. -/
def SeqDb.param (s : SeqDb) (index : Int) : Binding :=
  match s.params.find? (fun p => p.1 = index) with
  | some p => p.2
  | none => .null

/-- Effect of `UPDATE sqlite_sequence SET seq = ?1 WHERE name = ?2` on the rows. -/
def SeqDb.update (s : SeqDb) : SeqDb :=
  { s with
    rows := s.rows.map (fun r => if r.1 = s.param 2 then (r.1, s.param 1) else r),
    changes := ((s.rows.filter (fun r => r.1 = s.param 2)).length : Int) }

/-- Effect of `INSERT INTO sqlite_sequence(name, seq) VALUES(?1, ?2)` on the rows. -/
def SeqDb.insert (s : SeqDb) : SeqDb :=
  { s with rows := s.rows ++ [(s.param 1, s.param 2)], changes := 1 }

/-- A model of the engine restricted to the `sqlite_sequence` table: the two
sequence statements act on the rows, any other statement fails to step, and
`prepare` and `step` fail where the script says so. -/
def seqEngine : SQLiteBase SeqDb where
  openBase := fun s => (true, s)
  closeBase := fun s => s
  prepare := fun sql s =>
    if s.fails then (none, s.next)
    else (some { id := 0, sql := sql }, { s.next with params := [] })
  step := fun stmt s =>
    match stmt with
    | none => (false, s)
    | some st =>
      if s.fails then (false, s.next)
      else if st.sql = "UPDATE sqlite_sequence SET seq = ?1 WHERE name = ?2" then
        (true, s.next.update)
      else if st.sql = "INSERT INTO sqlite_sequence(name, seq) VALUES(?1, ?2)" then
        (true, s.next.insert)
      else (false, s.next)
  stepRows := fun _ s => ({ rows := [], done := false }, s)
  finalize := fun _ s => { s with params := [] }
  execute := fun _ _ s => (true, s)
  lazyCommitOrRollbackTransaction := fun s => (true, s)
  lazyBeginTransactionImmediate := fun s => (true, s)
  bind := fun stmt index value s =>
    match stmt with
    | none => s
    | some _ => { s with params := (index, value) :: s.params }
  reset := fun _ s => s
  changes := fun s => s.changes

/-- The sequence update template of the spec. -/
def updateSQL : String := "UPDATE sqlite_sequence SET seq = ?1 WHERE name = ?2"

/-- The sequence insert template of the spec. -/
def insertSQL : String := "INSERT INTO sqlite_sequence(name, seq) VALUES(?1, ?2)"

/-- The statement `recorder o` hands out when `sql` is prepared after `log`. -/
def recorderStmt (o : Oracle) (log : List Call) (sql : String) : Option Stmt :=
  (o.prepareId log sql).map (fun n => { id := n, sql := sql })

/-- The calls of `updateSequence` on statement `p`. -/
def specUpdateCalls (p : Option Stmt) (t : String) (s : Int) : List Call :=
  [Call.prepare updateSQL,
   Call.bind p 1 (.int64 s), Call.bind p 2 (.cstr t), Call.step p, Call.finalize p]

/-- The calls of `insertSequence` on statement `p`. -/
def specInsertCalls (p : Option Stmt) (t : String) (s : Int) : List Call :=
  [Call.prepare insertSQL,
   Call.bind p 1 (.cstr t), Call.bind p 2 (.int64 s), Call.step p, Call.finalize p]

/-- Sample: a `sqlite_sequence` table holding one row for `u` and one for `t`. -/
def sampleSeqDb : SeqDb :=
  { rows := [(.cstr "u", .int64 5), (.cstr "t", .int64 3)], params := [], changes := 0,
    fault := fun _ => false, clock := 0 }

/-- Sample: a cell with no value at all, for a table of two columns. -/
def sampleShortCell : Cell :=
  { rowID := 7, values := [] }

/-- Sample: a cell with three values, for a table of two columns. -/
def sampleLongCell : Cell :=
  { rowID := 7, values := [.Integer 1, .Real 0x400C000000000000, .Text 1 [122]] }

/-- Sample: `CREATE TABLE t(k TEXT PRIMARY KEY, v REAL)`. -/
def sampleTextKey : List TableInfoRow :=
  [{ name := some "k", decltype := "TEXT", pk := 1 },
   { name := some "v", decltype := "REAL", pk := 0 }]

/-! ## The value of one bind call -/

/-- State of `txnEngine`: whether the marker table exists, the value it had
when the open transaction began (`none` outside a transaction), and whether
an error is latched. -/
structure TxnDb where
  marker : Bool
  saved : Option Bool
  latched : Bool
  deriving DecidableEq, Repr

/-- Modelled from the spec: `SQLiteBase::lazyCommitOrRollbackTransaction` is
not part of the embedded source.  Outside a transaction it does nothing and
succeeds; inside one it "commits if no error is latched at the point of call,
otherwise rolls back".  The spec does not say what the call returns after a
rollback: that answer is the parameter `reportsRollback`. -/
def TxnDb.commitOrRollback (reportsRollback : Bool) (s : TxnDb) : Bool × TxnDb :=
  match s.saved with
  | none => (true, s)
  | some m =>
    if s.latched then (reportsRollback, { s with marker := m, saved := none })
    else (true, { s with saved := none })

/-- A model of the engine restricted to the marker table and the milestone
transaction: the marker statements create and drop the table, a rollback
restores the table as it was when the transaction began. -/
def txnEngine (reportsRollback : Bool) : SQLiteBase TxnDb where
  openBase := fun s => (true, s)
  closeBase := fun s => s
  prepare := fun sql s => (some { id := 0, sql := sql }, s)
  step := fun _ s => (true, s)
  stepRows := fun _ s => ({ rows := [], done := true }, s)
  finalize := fun _ s => s
  execute := fun sql _ s =>
    if sql = "DROP TABLE IF EXISTS wcdb_dummy_sqlite_sequence" then
      (true, { s with marker := false })
    else if sql = "CREATE TABLE IF NOT EXISTS wcdb_dummy_sqlite_sequence(i INTEGER "
        ++ "PRIMARY KEY AUTOINCREMENT)" then
      (true, { s with marker := true })
    else (true, s)
  lazyCommitOrRollbackTransaction := fun s => s.commitOrRollback reportsRollback
  lazyBeginTransactionImmediate := fun s =>
    match s.saved with
    | none => (true, { s with saved := some s.marker })
    | some _ => (true, s)
  bind := fun _ _ _ s => s
  reset := fun _ s => s
  changes := fun _ => 0

/-- Sample: inside a milestone transaction that began with the marker table in
place, with an error latched. -/
def sampleTxnDb : TxnDb :=
  { marker := true, saved := some true, latched := true }

/-! ## Sequences of operations -/

/-- The calls by which the insert of a table gets prepared: stepping a
table-info pragma, and preparing any statement other than the two sequence
statements. -/
def Call.preparesInsert : Call → Bool
  | .stepRows _ => true
  | .prepare sql => decide (sql ≠ updateSQL ∧ sql ≠ insertSQL)
  | _ => false

/-- The log `m` continues the log `l` without any call that prepares an insert. -/
def ExtendsQuietly (l m : List Call) : Prop :=
  ∃ suffix : List Call, m = l ++ suffix ∧ ∀ c ∈ suffix, c.preparesInsert = false

/-- Joining onto an accumulator that starts with `p` keeps `p` in front. -/
theorem intercalate_go_append (s p : String) (l : List String) (acc : String) :
    String.intercalate.go (p ++ acc) s l = p ++ String.intercalate.go acc s l := by
  induction l generalizing acc with
  | nil => rfl
  | cons c cs ih =>
    simp only [String.intercalate.go]
    rw [String.append_assoc p acc s, String.append_assoc p (acc ++ s) c, ih]

/-- The two streams of `getAssembleSQL` after the column loop. -/
theorem foldl_halves (cols : List String) (x y : String) :
    cols.foldl (fun (h : String × String) columnName =>
        (h.1 ++ ", " ++ columnName, h.2 ++ ", ?")) (x, y)
      = (String.intercalate.go x ", " cols,
         String.intercalate.go y ", " (List.replicate cols.length "?")) := by
  induction cols generalizing x y with
  | nil => rfl
  | cons c cs ih =>
    simp only [List.foldl_cons, ih, List.length_cons, List.replicate_succ, String.intercalate.go]
    have h : y ++ ", ?" = y ++ ", " ++ "?" := by
      rw [String.append_assoc]; rfl
    rw [h]

/-- The concatenation built by `getAssembleSQL` is the spec's template. -/
theorem assembled_eq_spec (duplicated : Bool) (t : String) (cols : List String) :
    (cols.foldl
      (fun (h : String × String) columnName => (h.1 ++ ", " ++ columnName, h.2 ++ ", ?"))
      ((if duplicated = false then "INSERT INTO " else "INSERT OR IGNORE INTO ") ++ t ++ "(rowid",
        ") VALUES(?")).1 ++
    ((cols.foldl
      (fun (h : String × String) columnName => (h.1 ++ ", " ++ columnName, h.2 ++ ", ?"))
      ((if duplicated = false then "INSERT INTO " else "INSERT OR IGNORE INTO ") ++ t ++ "(rowid",
        ") VALUES(?")).2 ++ ")") = specInsertSQL duplicated t cols := by
  have h1 : ("(rowid" : String) = "(" ++ "rowid" := by decide
  have h2 : (") VALUES(?" : String) = ") VALUES(" ++ "?" := by decide
  have h3 : ∀ p : String, p ++ t ++ "(rowid" = (p ++ t ++ "(") ++ "rowid" := by
    intro p; rw [h1, ← String.append_assoc]
  simp only [foldl_halves, specInsertSQL, String.intercalate, List.replicate_succ]
  rw [h3, h2, intercalate_go_append, intercalate_go_append]
  cases duplicated <;> simp [String.append_assoc]

/-! ### Introspection -/

/-- The loop appends the column names in order. -/
theorem getColumnNamesLoop_columns (rows : List TableInfoRow) (acc : List String × Int × Int) :
    (getColumnNamesLoop rows acc).1 = acc.1 ++ columnNamesOf rows := by
  induction rows generalizing acc with
  | nil => simp [getColumnNamesLoop, columnNamesOf]
  | cons r rs ih => simp [getColumnNamesLoop, ih, columnNamesOf]

/-- Every blob of a cell that fits is shorter than `2 ^ 31` bytes. -/
theorem Cell.blobsFit_mem (cell : Cell) (h : cell.blobsFit = true) (d : List UInt8)
    (hd : Value.BLOB d ∈ cell.values) : d.length < 2 ^ 31 := by
  simp only [Cell.blobsFit, List.all_eq_true] at h
  simpa using h _ hd

/-- What `getColumnNames` returns when the pragma is prepared and stepped to `SQLITE_DONE`. -/
theorem getColumnNames_done {σ : Type} (E : SQLiteBase σ) (t : String) (a : SQLiteAssembler σ)
    (stmt : Stmt) (rows : List TableInfoRow) (s1 s2 : σ)
    (hp : E.prepare ("PRAGMA table_info(" ++ t ++ ")") a.base = (some stmt, s1))
    (hr : E.stepRows stmt s1 = ({ rows := rows, done := true }, s2)) :
    getColumnNames E t a =
      ((true, columnNamesOf rows),
        { a with m_primary := introspectedPrimary rows, base := E.finalize (some stmt) s2 }) := by
  unfold getColumnNames
  simp only [hp, hr, if_true, getColumnNamesLoop_columns, List.nil_append, introspectedPrimary]

/-- What `getAssembleSQL` returns when the pragma is prepared and stepped to `SQLITE_DONE`. -/
theorem getAssembleSQL_done {σ : Type} (E : SQLiteBase σ) (t : String) (a : SQLiteAssembler σ)
    (stmt : Stmt) (rows : List TableInfoRow) (s1 s2 : σ)
    (hp : E.prepare ("PRAGMA table_info(" ++ t ++ ")") a.base = (some stmt, s1))
    (hr : E.stepRows stmt s1 = ({ rows := rows, done := true }, s2)) :
    getAssembleSQL E t a =
      ((true, specInsertSQL a.m_duplicated t (columnNamesOf rows)),
        { a with m_primary := introspectedPrimary rows, base := E.finalize (some stmt) s2 }) := by
  unfold getAssembleSQL
  simp only [getColumnNames_done E t a stmt rows s1 s2 hp hr, Bool.true_eq_false, if_false,
    assembled_eq_spec]

/-- What `lazyPrepareCell` does when no statement is cached and the introspection succeeds. -/
theorem lazyPrepareCell_fresh {σ : Type} (E : SQLiteBase σ) (a : SQLiteAssembler σ)
    (stmt : Stmt) (rows : List TableInfoRow) (s1 s2 : σ)
    (hnone : a.m_cellSTMT = none)
    (hp : E.prepare ("PRAGMA table_info(" ++ a.m_table ++ ")") a.base = (some stmt, s1))
    (hr : E.stepRows stmt s1 = ({ rows := rows, done := true }, s2)) :
    lazyPrepareCell E a =
      ((E.prepare (specInsertSQL a.m_duplicated a.m_table (columnNamesOf rows))
          (E.finalize (some stmt) s2)).1.isSome,
        { a with
          m_primary := introspectedPrimary rows,
          m_cellSTMT := (E.prepare (specInsertSQL a.m_duplicated a.m_table (columnNamesOf rows))
            (E.finalize (some stmt) s2)).1,
          base := (E.prepare (specInsertSQL a.m_duplicated a.m_table (columnNamesOf rows))
            (E.finalize (some stmt) s2)).2 }) := by
  unfold lazyPrepareCell
  rw [hnone]
  simp only [getAssembleSQL_done E a.m_table a stmt rows s1 s2 hp hr, Bool.true_eq_false,
    if_false]

/-- The cast `(int) n` is the identity below `2 ^ 31`. -/
theorem toInt32_of_lt (n : Nat) (h : n < 2 ^ 31) : toInt32 n = n := by
  unfold toInt32
  have h31 : (2 : Int) ^ 31 = 2147483648 := by norm_num
  have h32 : (2 : Int) ^ 32 = 4294967296 := by norm_num
  have hn : (n : Int) < 2147483648 := by
    have : (2 : Nat) ^ 31 = 2147483648 := by norm_num
    omega
  rw [h31, h32]
  omega

/-- After the loop `maxpk` bounds its initial value and every tag. -/
theorem loop_maxpk_ge (rows : List TableInfoRow) (acc : List String × Int × Int) :
    acc.2.2 ≤ (getColumnNamesLoop rows acc).2.2
      ∧ ∀ r ∈ rows, r.pk ≤ (getColumnNamesLoop rows acc).2.2 := by
  induction rows generalizing acc with
  | nil => simp [getColumnNamesLoop]
  | cons r rs ih =>
    simp only [getColumnNamesLoop, List.mem_cons, forall_eq_or_imp]
    have h := ih (acc.1 ++ [r.name.getD ""],
      (if r.pk = 1 then toInt32 (acc.1 ++ [r.name.getD ""]).length - 1 else acc.2.1),
      max r.pk acc.2.2)
    simp only at h
    refine ⟨?_, ?_, h.2⟩
    · exact le_trans (le_max_right _ _) h.1
    · exact le_trans (le_max_left _ _) h.1

/-- After the loop `maxpk` is below any bound of its initial value and of the tags. -/
theorem loop_maxpk_le (rows : List TableInfoRow) (acc : List String × Int × Int) (b : Int)
    (hacc : acc.2.2 ≤ b) (hrows : ∀ r ∈ rows, r.pk ≤ b) :
    (getColumnNamesLoop rows acc).2.2 ≤ b := by
  induction rows generalizing acc with
  | nil => simpa [getColumnNamesLoop] using hacc
  | cons r rs ih =>
    simp only [getColumnNamesLoop]
    apply ih
    · exact max_le (hrows r (by simp)) hacc
    · intro x hx; exact hrows x (by simp [hx])

/-- After the loop `maxpk` is its initial value or one of the tags. -/
theorem loop_maxpk_mem (rows : List TableInfoRow) (acc : List String × Int × Int) :
    (getColumnNamesLoop rows acc).2.2 = acc.2.2
      ∨ ∃ r ∈ rows, r.pk = (getColumnNamesLoop rows acc).2.2 := by
  induction rows generalizing acc with
  | nil => simp [getColumnNamesLoop]
  | cons r rs ih =>
    simp only [getColumnNamesLoop]
    rcases ih (acc.1 ++ [r.name.getD ""],
      (if r.pk = 1 then toInt32 (acc.1 ++ [r.name.getD ""]).length - 1 else acc.2.1),
      max r.pk acc.2.2) with h | ⟨x, hx, hxe⟩
    · simp only at h
      rcases max_choice r.pk acc.2.2 with hm | hm
      · right; exact ⟨r, by simp, by rw [h, hm]⟩
      · left; rw [h, hm]
    · right; exact ⟨x, by simp [hx], hxe⟩

/-- The loop ends with `maxpk == 1` exactly when some tag is 1 and none exceeds 1. -/
theorem loop_maxpk_eq_one (rows : List TableInfoRow) :
    (getColumnNamesLoop rows ([], -1, 0)).2.2 = 1
      ↔ (∃ r ∈ rows, r.pk = 1) ∧ ∀ r ∈ rows, r.pk ≤ 1 := by
  constructor
  · intro h
    refine ⟨?_, ?_⟩
    · rcases loop_maxpk_mem rows ([], -1, 0) with h0 | ⟨r, hr, hre⟩
      · rw [h] at h0; simp at h0
      · exact ⟨r, hr, by rw [hre, h]⟩
    · intro r hr
      have := (loop_maxpk_ge rows ([], -1, 0)).2 r hr
      rwa [h] at this
  · rintro ⟨⟨r, hr, hr1⟩, hle⟩
    have h1 := loop_maxpk_le rows ([], -1, 0) 1 (by simp) hle
    have h2 := (loop_maxpk_ge rows ([], -1, 0)).2 r hr
    rw [hr1] at h2
    exact le_antisymm h1 h2

/-- The loop leaves `primary` untouched when no tag is 1, and otherwise at the
position of the last row whose tag is 1. -/
theorem loop_primary (rows : List TableInfoRow) (acc : List String × Int × Int) :
    ((getColumnNamesLoop rows acc).2.1 = acc.2.1 ∧ ∀ r ∈ rows, r.pk ≠ 1)
      ∨ ∃ k r, rows[k]? = some r ∧ r.pk = 1
          ∧ (∀ j x, k < j → rows[j]? = some x → x.pk ≠ 1)
          ∧ (getColumnNamesLoop rows acc).2.1 = toInt32 (acc.1.length + k + 1) - 1 := by
  induction rows generalizing acc with
  | nil => left; simp [getColumnNamesLoop]
  | cons r rs ih =>
    simp only [getColumnNamesLoop]
    rcases ih (acc.1 ++ [r.name.getD ""],
      (if r.pk = 1 then toInt32 (acc.1 ++ [r.name.getD ""]).length - 1 else acc.2.1),
      max r.pk acc.2.2) with ⟨h, hno⟩ | ⟨k, x, hk, hx, hlast, hres⟩
    · simp only at h
      by_cases h1 : r.pk = 1
      · right
        refine ⟨0, r, by simp, h1, ?_, ?_⟩
        · intro j y hj hy
          cases j with
          | zero => omega
          | succ j =>
            simp only [List.getElem?_cons_succ] at hy
            exact hno y (List.getElem?_mem hy)
        · rw [h, if_pos h1]; simp
      · left
        refine ⟨by rw [h, if_neg h1], ?_⟩
        intro y hy
        rcases List.mem_cons.1 hy with rfl | hy
        · exact h1
        · exact hno y hy
    · right
      refine ⟨k + 1, x, by simpa using hk, hx, ?_, ?_⟩
      · intro j y hj hy
        cases j with
        | zero => omega
        | succ j =>
          simp only [List.getElem?_cons_succ] at hy
          exact hlast j y (by omega) hy
      · rw [hres]
        simp only [List.length_append, List.length_singleton]
        congr 2
        omega

/-- Without a maximum tag of 1 the primary index is -1. -/
theorem introspectedPrimary_none (rows : List TableInfoRow)
    (h : ¬ ((∃ r ∈ rows, r.pk = 1) ∧ ∀ r ∈ rows, r.pk ≤ 1)) :
    introspectedPrimary rows = -1 := by
  unfold introspectedPrimary
  rw [if_neg]
  rw [loop_maxpk_eq_one]
  exact h

/-- With a maximum tag of 1 the primary index is the position of the last column tagged 1. -/
theorem introspectedPrimary_last (rows : List TableInfoRow) (hlen : rows.length < 2 ^ 31)
    (h : (∃ r ∈ rows, r.pk = 1) ∧ ∀ r ∈ rows, r.pk ≤ 1) :
    ∃ (k : Nat) (r : TableInfoRow), rows[k]? = some r ∧ r.pk = 1
      ∧ (∀ (j : Nat) (x : TableInfoRow), k < j → rows[j]? = some x → x.pk ≠ 1)
      ∧ introspectedPrimary rows = (k : Int) := by
  unfold introspectedPrimary
  rw [if_pos ((loop_maxpk_eq_one rows).2 h)]
  rcases loop_primary rows ([], -1, 0) with ⟨_, hno⟩ | ⟨k, r, hk, hr, hlast, hres⟩
  · obtain ⟨⟨r, hr, hr1⟩, _⟩ := h
    exact absurd hr1 (hno r hr)
  · refine ⟨k, r, hk, hr, hlast, ?_⟩
    rw [hres]
    have hklt : k < rows.length := by
      rcases List.getElem?_eq_some.1 hk with ⟨hlt, _⟩
      exact hlt
    have : toInt32 (([] : List String).length + k + 1) = ((k + 1 : Nat) : Int) := by
      simp only [List.length_nil, Nat.zero_add]
      exact toInt32_of_lt (k + 1) (by omega)
    rw [this]
    push_cast
    ring

/-- With column `k` as the only tagged column the primary index is `k`. -/
theorem introspectedPrimary_single (rows : List TableInfoRow) (hlen : rows.length < 2 ^ 31)
    (k : Nat) (r : TableInfoRow) (hk : rows[k]? = some r) (hr : r.pk = 1)
    (hother : ∀ (j : Nat) (x : TableInfoRow), j ≠ k → rows[j]? = some x → x.pk ≤ 0) :
    introspectedPrimary rows = (k : Int) := by
  have hsingle : (∃ r ∈ rows, r.pk = 1) ∧ ∀ r ∈ rows, r.pk ≤ 1 := by
    refine ⟨⟨r, List.getElem?_mem hk, hr⟩, ?_⟩
    intro x hx
    rcases List.mem_iff_getElem?.1 hx with ⟨j, hj⟩
    by_cases hjk : j = k
    · subst hjk
      rw [hk] at hj
      cases hj
      omega
    · have := hother j x hjk hj
      omega
  obtain ⟨k2, r2, hk2, hr2, _, hres⟩ := introspectedPrimary_last rows hlen hsingle
  by_cases hkk : k2 = k
  · rw [hres, hkk]
  · have := hother k2 r2 hkk hk2
    omega

/-! ### Binding a cell -/

/-- One iteration of the bind loop, as recorded. -/
theorem bindValue_recorder (o : Oracle) (stmt : Option Stmt) (p r : Int) (k : Nat) (v : Value)
    (log : List Call) (hv : ∀ d, v = Value.BLOB d → d.length < 2 ^ 31) :
    bindValue (recorder o) stmt p r (k : Int) v log
      = log ++ [Call.bind stmt ((k : Int) + 2) (specBinding r p k v)] := by
  cases v with
  | BLOB d => simp [bindValue, recorder, specBinding, toInt32_of_lt d.length (hv d rfl)]
  | Null => by_cases h : (k : Int) = p <;> simp [bindValue, recorder, specBinding, h]
  | _ => simp [bindValue, recorder, specBinding]

/-- The bind loop, as recorded: one bind per value, in order. -/
theorem bindLoop_recorder (o : Oracle) (stmt : Option Stmt) (p r : Int) (vs : List Value)
    (k : Nat) (log : List Call) (hv : ∀ d, Value.BLOB d ∈ vs → d.length < 2 ^ 31) :
    bindLoop (recorder o) stmt p r vs (k : Int) log
      = log ++ (vs.enumFrom k).map
          (fun iv => Call.bind stmt ((iv.1 : Int) + 2) (specBinding r p iv.1 iv.2)) := by
  induction vs generalizing k log with
  | nil => simp [bindLoop]
  | cons v vs ih =>
    have h1 : ∀ d, v = Value.BLOB d → d.length < 2 ^ 31 := by
      intro d hd; exact hv d (by simp [hd])
    have h2 : ∀ d, Value.BLOB d ∈ vs → d.length < 2 ^ 31 := by
      intro d hd; exact hv d (by simp [hd])
    have hk : (k : Int) + 1 = ((k + 1 : Nat) : Int) := by push_cast; ring
    simp only [bindLoop, bindValue_recorder o stmt p r k v log h1, hk, ih (k + 1) _ h2,
      List.enumFrom_cons, List.map_cons, List.append_assoc, List.singleton_append]

/-- The result and the recorded calls of `assembleCell` once the insert is prepared. -/
theorem assembleCell_recorder (o : Oracle) (cell : Cell) (a b : SQLiteAssembler (List Call))
    (hl : lazyPrepareCell (recorder o) a = (true, b)) (hblob : cell.blobsFit = true) :
    assembleCell (recorder o) cell a =
      (o.stepOk (b.base ++ specBindCalls b.m_cellSTMT b.m_primary cell) b.m_cellSTMT,
        { b with base := b.base ++ specBindCalls b.m_cellSTMT b.m_primary cell
            ++ [Call.step b.m_cellSTMT, Call.reset b.m_cellSTMT] }) := by
  unfold assembleCell
  have hloop := bindLoop_recorder o b.m_cellSTMT b.m_primary cell.rowID cell.values 0
    ((recorder o).bind b.m_cellSTMT 1 (.int64 cell.rowID) b.base) (cell.blobsFit_mem hblob)
  simp only [Nat.cast_zero] at hloop
  simp only [hl, Bool.true_eq_false, if_false, hloop]
  simp [recorder, specBindCalls, List.enum]

/-- The bind call at position `i + 1` is the one of the value at index `i`. -/
theorem specBindCalls_getElem (stmt : Option Stmt) (p : Int) (cell : Cell) (i : Nat) (v : Value)
    (hv : cell.values[i]? = some v) :
    (specBindCalls stmt p cell)[i + 1]?
      = some (Call.bind stmt ((i : Int) + 2) (specBinding cell.rowID p i v)) := by
  simp [specBindCalls, List.getElem?_map, List.getElem?_enum, hv]

/-- There is one bind call for the row id and one per value. -/
theorem specBindCalls_length (stmt : Option Stmt) (p : Int) (cell : Cell) :
    (specBindCalls stmt p cell).length = cell.values.length + 1 := by
  simp [specBindCalls]

/-- Reading the middle segment of a log. -/
theorem log_getElem_binds (pre binds post : List Call) (i : Nat) (c : Call)
    (h : binds[i]? = some c) : (pre ++ binds ++ post)[pre.length + i]? = some c := by
  have hi : i < binds.length := (List.getElem?_eq_some.1 h).1
  rw [List.append_assoc, List.getElem?_append_right (by omega)]
  simp only [Nat.add_sub_cancel_left]
  rw [List.getElem?_append_left hi, h]

/-- Without primary index every value is bound as itself. -/
theorem specBinding_none (rowID : Int) (i : Nat) (v : Value) :
    specBinding rowID (-1) i v = plainBinding v := by
  cases v with
  | Null =>
    have h : ¬ ((i : Int) = -1) := by omega
    simp [specBinding, plainBinding, h]
  | _ => rfl

/-- When the lazy prepare fails `assembleCell` returns false and calls nothing more. -/
theorem assembleCell_unprepared {σ : Type} (E : SQLiteBase σ) (cell : Cell)
    (a : SQLiteAssembler σ) (h : (lazyPrepareCell E a).1 = false) :
    assembleCell E cell a = (false, (lazyPrepareCell E a).2) := by
  unfold assembleCell
  simp only [h, if_true]


/-! ### The insert template, the bindings and the primary index -/

/-- C1. When the table-info pragma is prepared and runs to completion with
columns `c1 .. cN` (`N ≥ 0`), `getAssembleSQL` succeeds with exactly
`INSERT INTO t(rowid, c1, ..., cN) VALUES(?, ?, ..., ?)`, or with
`INSERT OR IGNORE INTO` in place of `INSERT INTO` when `m_duplicated` is set:
the names verbatim and in introspection order, and `N + 1` placeholders. -/
theorem getAssembleSQL_template {σ : Type} (E : SQLiteBase σ) (t : String)
    (a : SQLiteAssembler σ) (stmt : Stmt) (rows : List TableInfoRow) (s1 s2 : σ)
    (hp : E.prepare ("PRAGMA table_info(" ++ t ++ ")") a.base = (some stmt, s1))
    (hr : E.stepRows stmt s1 = ({ rows := rows, done := true }, s2)) :
    (getAssembleSQL E t a).1 =
      (true,
        (if a.m_duplicated then "INSERT OR IGNORE INTO " else "INSERT INTO ") ++ t ++ "("
          ++ ", ".intercalate ("rowid" :: rows.map (fun r => r.name.getD "")) ++ ") VALUES("
          ++ ", ".intercalate (List.replicate (rows.length + 1) "?") ++ ")") := by
  rw [getAssembleSQL_done E t a stmt rows s1 s2 hp hr]
  simp [specInsertSQL, columnNamesOf]

/-- C1 at a concrete table: two columns, in strict and in duplicated mode. -/
theorem getAssembleSQL_template_witness :
    (getAssembleSQL (recorder (Oracle.succeeding sampleRowidAlias 0)) "t" sampleAssembler).1
        = (true, "INSERT INTO t(rowid, id, v) VALUES(?, ?, ?)")
      ∧ (getAssembleSQL (recorder (Oracle.succeeding sampleRowidAlias 0)) "t"
          (markAsDuplicated true sampleAssembler)).1
        = (true, "INSERT OR IGNORE INTO t(rowid, id, v) VALUES(?, ?, ?)") :=
  ⟨getAssembleSQL_template (recorder (Oracle.succeeding sampleRowidAlias 0)) "t" sampleAssembler
      { id := 0, sql := "PRAGMA table_info(t)" } sampleRowidAlias
      [Call.prepare "PRAGMA table_info(t)"]
      [Call.prepare "PRAGMA table_info(t)",
        Call.stepRows { id := 0, sql := "PRAGMA table_info(t)" }]
      (by decide) (by decide),
   getAssembleSQL_template (recorder (Oracle.succeeding sampleRowidAlias 0)) "t"
      (markAsDuplicated true sampleAssembler)
      { id := 0, sql := "PRAGMA table_info(t)" } sampleRowidAlias
      [Call.prepare "PRAGMA table_info(t)"]
      [Call.prepare "PRAGMA table_info(t)",
        Call.stepRows { id := 0, sql := "PRAGMA table_info(t)" }]
      (by decide) (by decide)⟩

/-- C2. Once the insert is prepared (`lazyPrepareCell` returns true, leaving
statement `b.m_cellSTMT` and primary index `b.m_primary`), `assembleCell`
issues, in order: the bind of parameter 1 to the row id, for every index `i`
of the cell the bind of parameter `i + 2` prescribed by the spec's protocol
(the value itself for Integer, Real, Text and Blob; for Null the row id when
`i` is the primary index and SQL NULL otherwise), then one step and one
reset.  In particular, when the statement is prepared from a table whose only
primary-key column is column `k`, the primary index is `k` and a cell with
Null at `k` gets parameter `k + 2` bound to its row id. -/
theorem assembleCell_bindings (o : Oracle) (cell : Cell) (a b : SQLiteAssembler (List Call))
    (hl : lazyPrepareCell (recorder o) a = (true, b)) (hblob : cell.blobsFit = true) :
    (assembleCell (recorder o) cell a).2.base
        = b.base ++ specBindCalls b.m_cellSTMT b.m_primary cell
            ++ [Call.step b.m_cellSTMT, Call.reset b.m_cellSTMT]
      ∧ (assembleCell (recorder o) cell a).2.base[b.base.length]?
          = some (Call.bind b.m_cellSTMT 1 (.int64 cell.rowID))
      ∧ (∀ (i : Nat) (v : Value), cell.values[i]? = some v →
          (assembleCell (recorder o) cell a).2.base[b.base.length + (i + 1)]?
            = some (Call.bind b.m_cellSTMT ((i : Int) + 2)
                (specBinding cell.rowID b.m_primary i v)))
      ∧ (∀ (stmt : Stmt) (rows : List TableInfoRow) (s1 s2 : List Call) (k : Nat)
          (r : TableInfoRow),
          a.m_cellSTMT = none →
          (recorder o).prepare ("PRAGMA table_info(" ++ a.m_table ++ ")") a.base
            = (some stmt, s1) →
          (recorder o).stepRows stmt s1 = ({ rows := rows, done := true }, s2) →
          rows.length < 2 ^ 31 →
          rows[k]? = some r → r.pk = 1 →
          (∀ (j : Nat) (x : TableInfoRow), j ≠ k → rows[j]? = some x → x.pk ≤ 0) →
          cell.values[k]? = some Value.Null →
          b.m_primary = (k : Int)
            ∧ (assembleCell (recorder o) cell a).2.base[b.base.length + (k + 1)]?
                = some (Call.bind b.m_cellSTMT ((k : Int) + 2) (.int64 cell.rowID))) := by
  have hrun := assembleCell_recorder o cell a b hl hblob
  have hidx : ∀ (i : Nat) (v : Value), cell.values[i]? = some v →
      (assembleCell (recorder o) cell a).2.base[b.base.length + (i + 1)]?
        = some (Call.bind b.m_cellSTMT ((i : Int) + 2)
            (specBinding cell.rowID b.m_primary i v)) := by
    intro i v hv
    rw [hrun]
    exact log_getElem_binds _ _ _ _ _ (specBindCalls_getElem _ _ _ _ _ hv)
  refine ⟨by rw [hrun], ?_, hidx, ?_⟩
  · rw [hrun]
    have := log_getElem_binds b.base (specBindCalls b.m_cellSTMT b.m_primary cell)
      [Call.step b.m_cellSTMT, Call.reset b.m_cellSTMT] 0
      (Call.bind b.m_cellSTMT 1 (.int64 cell.rowID)) (by simp [specBindCalls])
    simpa using this
  · intro stmt rows s1 s2 k r hnone hp hr hlen hk hr1 hother hnull
    have hfresh := lazyPrepareCell_fresh (recorder o) a stmt rows s1 s2 hnone hp hr
    rw [hl] at hfresh
    have hb : b.m_primary = introspectedPrimary rows := by
      have := congrArg (fun x => x.2.m_primary) hfresh
      simpa using this
    have hprim : b.m_primary = (k : Int) := by
      rw [hb]; exact introspectedPrimary_single rows hlen k r hk hr1 hother
    refine ⟨hprim, ?_⟩
    rw [hidx k Value.Null hnull]
    simp [specBinding, hprim]

/-- C2 at the cell `(42, [Null, Real 3.5])` of `t(id INTEGER PRIMARY KEY, v REAL)`. -/
theorem assembleCell_bindings_witness :
    (assembleCell (recorder (Oracle.succeeding sampleRowidAlias 0)) sampleCell
        sampleAssembler).2.base
      = (lazyPrepareCell (recorder (Oracle.succeeding sampleRowidAlias 0)) sampleAssembler).2.base
        ++ [Call.bind (some { id := 3, sql := "INSERT INTO t(rowid, id, v) VALUES(?, ?, ?)" })
              1 (.int64 42),
            Call.bind (some { id := 3, sql := "INSERT INTO t(rowid, id, v) VALUES(?, ?, ?)" })
              2 (.int64 42),
            Call.bind (some { id := 3, sql := "INSERT INTO t(rowid, id, v) VALUES(?, ?, ?)" })
              3 (.double 0x400C000000000000)]
        ++ [Call.step (some { id := 3, sql := "INSERT INTO t(rowid, id, v) VALUES(?, ?, ?)" }),
            Call.reset (some { id := 3, sql := "INSERT INTO t(rowid, id, v) VALUES(?, ?, ?)" })] :=
  (assembleCell_bindings (Oracle.succeeding sampleRowidAlias 0) sampleCell sampleAssembler
    (lazyPrepareCell (recorder (Oracle.succeeding sampleRowidAlias 0)) sampleAssembler).2
    rfl (by decide)).1

/-- C3. When `getColumnNames` succeeds on rows with primary-key tags, it sets
`m_primary` to the zero-based index of the (last) column whose tag is exactly
1 if the maximum tag is 1, and to -1 otherwise; so for a composite key (some
tag at least 2) and for a table without primary key (no positive tag) it is
-1.  The statement prepared next keeps that value, and when it is -1 every
value of a cell, Null included, is bound as itself: `assembleCell` never
substitutes the row id for a Null. -/
theorem getColumnNames_primary_index (o : Oracle) (a : SQLiteAssembler (List Call)) (cell : Cell)
    (stmt : Stmt) (rows : List TableInfoRow) (s1 s2 : List Call)
    (hnone : a.m_cellSTMT = none)
    (hp : (recorder o).prepare ("PRAGMA table_info(" ++ a.m_table ++ ")") a.base
      = (some stmt, s1))
    (hr : (recorder o).stepRows stmt s1 = ({ rows := rows, done := true }, s2))
    (hlen : rows.length < 2 ^ 31) (hblob : cell.blobsFit = true) :
    (getColumnNames (recorder o) a.m_table a).1.1 = true
      ∧ (((∃ r ∈ rows, r.pk = 1) ∧ ∀ r ∈ rows, r.pk ≤ 1) →
          ∃ (k : Nat) (r : TableInfoRow), rows[k]? = some r ∧ r.pk = 1
            ∧ (∀ (j : Nat) (x : TableInfoRow), k < j → rows[j]? = some x → x.pk ≠ 1)
            ∧ (getColumnNames (recorder o) a.m_table a).2.m_primary = (k : Int))
      ∧ (¬ ((∃ r ∈ rows, r.pk = 1) ∧ ∀ r ∈ rows, r.pk ≤ 1) →
          (getColumnNames (recorder o) a.m_table a).2.m_primary = -1)
      ∧ ((∃ r ∈ rows, 2 ≤ r.pk) → (getColumnNames (recorder o) a.m_table a).2.m_primary = -1)
      ∧ ((∀ r ∈ rows, r.pk ≤ 0) → (getColumnNames (recorder o) a.m_table a).2.m_primary = -1)
      ∧ (lazyPrepareCell (recorder o) a).2.m_primary
          = (getColumnNames (recorder o) a.m_table a).2.m_primary
      ∧ ((getColumnNames (recorder o) a.m_table a).2.m_primary = -1 →
          ∀ b : SQLiteAssembler (List Call), lazyPrepareCell (recorder o) a = (true, b) →
            (assembleCell (recorder o) cell a).2.base
              = b.base
                ++ Call.bind b.m_cellSTMT 1 (.int64 cell.rowID)
                    :: cell.values.enum.map
                        (fun iv => Call.bind b.m_cellSTMT ((iv.1 : Int) + 2) (plainBinding iv.2))
                ++ [Call.step b.m_cellSTMT, Call.reset b.m_cellSTMT])
      ∧ ((lazyPrepareCell (recorder o) a).1 = false →
          (assembleCell (recorder o) cell a).2.base = (lazyPrepareCell (recorder o) a).2.base) := by
  have hg := getColumnNames_done (recorder o) a.m_table a stmt rows s1 s2 hp hr
  have hfresh := lazyPrepareCell_fresh (recorder o) a stmt rows s1 s2 hnone hp hr
  have hcomp : (∃ r ∈ rows, 2 ≤ r.pk) → ¬ ((∃ r ∈ rows, r.pk = 1) ∧ ∀ r ∈ rows, r.pk ≤ 1) := by
    rintro ⟨r, hr, h2⟩ ⟨_, hle⟩
    have := hle r hr
    omega
  have hnopk : (∀ r ∈ rows, r.pk ≤ 0) → ¬ ((∃ r ∈ rows, r.pk = 1) ∧ ∀ r ∈ rows, r.pk ≤ 1) := by
    rintro h0 ⟨⟨r, hr, h1⟩, _⟩
    have := h0 r hr
    omega
  rw [hg]
  refine ⟨rfl, ?_, ?_, ?_, ?_, ?_, ?_, ?_⟩
  · intro h
    exact introspectedPrimary_last rows hlen h
  · intro h
    exact introspectedPrimary_none rows h
  · intro h
    exact introspectedPrimary_none rows (hcomp h)
  · intro h
    exact introspectedPrimary_none rows (hnopk h)
  · rw [hfresh]
  · intro hm b hl
    have hb : b.m_primary = -1 := by
      rw [hfresh] at hl
      have := congrArg (fun x => x.2.m_primary) hl
      simp only at this
      rw [← this]
      exact hm
    rw [assembleCell_recorder o cell a b hl hblob]
    simp [specBindCalls, hb, specBinding_none]
  · intro h
    rw [assembleCell_unprepared (recorder o) cell a h]

/-- C3 at `t(a INT, b INT, v TEXT, PRIMARY KEY(a, b))`: the primary index is -1. -/
theorem getColumnNames_primary_index_witness :
    (getColumnNames (recorder (Oracle.succeeding sampleComposite 0)) "t" sampleAssembler).2.m_primary
      = -1 :=
  (getColumnNames_primary_index (Oracle.succeeding sampleComposite 0) sampleAssembler sampleCell
    { id := 0, sql := "PRAGMA table_info(t)" } sampleComposite
    [Call.prepare "PRAGMA table_info(t)"]
    [Call.prepare "PRAGMA table_info(t)",
      Call.stepRows { id := 0, sql := "PRAGMA table_info(t)" }]
    rfl (by decide) (by decide) (by decide) (by decide)).2.2.2.1 (by decide)

/-! ### Sequences -/

/-- On the sequence model a successful `updateSequence` rewrites the rows named `t` and reports whether there was one. -/
theorem updateSequence_seqEngine (t : String) (s : Int) (db : SeqDb)
    (h : (updateSequence seqEngine t s db).1.1 = true) :
    (updateSequence seqEngine t s db).2.rows
        = db.rows.map (fun r => if r.1 = .cstr t then (r.1, .int64 s) else r)
      ∧ (updateSequence seqEngine t s db).1.2
        = decide (0 < (db.rows.filter (fun r => r.1 = .cstr t)).length) := by
  unfold updateSequence at h ⊢
  cases h1 : db.fault db.clock
  · cases h2 : db.fault (db.clock + 1)
    · simp [seqEngine, h1, h2, SeqDb.update, SeqDb.param, SeqDb.next, SeqDb.fails]
    · simp [seqEngine, h1, h2, SeqDb.next, SeqDb.fails] at h
  · simp [seqEngine, h1, SeqDb.next, SeqDb.fails] at h

/-- On the sequence model a successful `insertSequence` appends the row `(t, s)`. -/
theorem insertSequence_seqEngine (t : String) (s : Int) (db : SeqDb)
    (h : (insertSequence seqEngine t s db).1 = true) :
    (insertSequence seqEngine t s db).2.rows = db.rows ++ [(.cstr t, .int64 s)] := by
  unfold insertSequence at h ⊢
  cases h1 : db.fault db.clock
  · cases h2 : db.fault (db.clock + 1)
    · simp [seqEngine, h1, h2, SeqDb.insert, SeqDb.param, SeqDb.next, SeqDb.fails]
    · simp [seqEngine, h1, h2, SeqDb.next, SeqDb.fails] at h
  · simp [seqEngine, h1, SeqDb.next, SeqDb.fails] at h


/-- The rows named `n` after the update all carry the new sequence. -/
theorem filter_name_map_update (rows : List (Binding × Binding)) (n v : Binding) :
    (rows.map (fun r => if r.1 = n then (r.1, v) else r)).filter (fun r => r.1 = n)
      = (rows.filter (fun r => r.1 = n)).map (fun _ => (n, v)) := by
  induction rows with
  | nil => rfl
  | cons r rs ih =>
    by_cases h : r.1 = n
    · simp [List.filter_cons, h, ih]
    · simp [List.filter_cons, h, ih]

/-- The update leaves the rows of other names as they were. -/
theorem filter_other_map_update (rows : List (Binding × Binding)) (n v : Binding) :
    (rows.map (fun r => if r.1 = n then (r.1, v) else r)).filter (fun r => r.1 ≠ n)
      = rows.filter (fun r => r.1 ≠ n) := by
  induction rows with
  | nil => rfl
  | cons r rs ih =>
    by_cases h : r.1 = n
    · simp only [List.map_cons, h, if_true, List.filter_cons, ne_eq, not_true_eq_false,
        decide_False, Bool.false_eq_true, if_false]
      exact ih
    · simp only [List.map_cons, h, if_false, List.filter_cons, ne_eq, not_false_eq_true,
        decide_True, if_true]
      rw [ih]

/-- On `seqEngine`, a successful `assembleSequence` with a positive sequence
leaves exactly one row for the table when there was at most one before. -/
theorem assembleSequence_seqEngine (t : String) (s : Int) (a : SQLiteAssembler SeqDb)
    (hs : 0 < s)
    (hone : (a.base.rows.filter (fun r => r.1 = .cstr t)).length ≤ 1)
    (hok : (assembleSequence seqEngine t s a).1 = true) :
    (assembleSequence seqEngine t s a).2.base.rows.filter (fun r => r.1 = .cstr t)
        = [(.cstr t, .int64 s)]
      ∧ (assembleSequence seqEngine t s a).2.base.rows.filter (fun r => r.1 ≠ .cstr t)
        = a.base.rows.filter (fun r => r.1 ≠ .cstr t) := by
  have hs' : ¬ s ≤ 0 := by omega
  unfold assembleSequence at hok ⊢
  simp only [hs', if_false] at hok ⊢
  cases hu : (updateSequence seqEngine t s a.base).1.1
  · simp [hu] at hok
  · obtain ⟨hrows, hupd⟩ := updateSequence_seqEngine t s a.base hu
    simp only [hu, Bool.true_eq_false, if_false] at hok ⊢
    by_cases hc : 0 < (a.base.rows.filter (fun r => r.1 = .cstr t)).length
    · have hflag : (updateSequence seqEngine t s a.base).1.2 = true := by
        rw [hupd]; simpa using hc
      have hlen : (a.base.rows.filter (fun r => r.1 = .cstr t)).length = 1 := by omega
      simp only [hflag, if_true]
      rw [hrows, filter_name_map_update, filter_other_map_update]
      refine ⟨?_, rfl⟩
      obtain ⟨x, hx⟩ := List.length_eq_one.1 hlen
      rw [hx]; rfl
    · have hflag : (updateSequence seqEngine t s a.base).1.2 = false := by
        rw [hupd]; simpa using hc
      have hlen : (a.base.rows.filter (fun r => r.1 = .cstr t)).length = 0 := by omega
      simp only [hflag, Bool.false_eq_true, if_false] at hok ⊢
      rw [insertSequence_seqEngine t s _ hok, hrows, List.filter_append, List.filter_append,
        filter_name_map_update, filter_other_map_update, List.length_eq_zero.1 hlen]
      simp


/-- The result and the recorded calls of `updateSequence`. -/
theorem updateSequence_recorder (o : Oracle) (t : String) (s : Int) (log : List Call) :
    updateSequence (recorder o) t s log =
      (if o.stepOk (log ++ (specUpdateCalls (recorderStmt o log updateSQL) t s).take 3)
            (recorderStmt o log updateSQL) = false
        then (false, false)
        else (true, decide (o.changes
          (log ++ specUpdateCalls (recorderStmt o log updateSQL) t s) > 0)),
       log ++ specUpdateCalls (recorderStmt o log updateSQL) t s) := by
  unfold updateSequence
  by_cases h : o.stepOk (log ++ (specUpdateCalls (recorderStmt o log updateSQL) t s).take 3)
      (recorderStmt o log updateSQL) = false
  · simp [recorder, specUpdateCalls, recorderStmt, updateSQL] at h ⊢
    simp [h]
  · simp [recorder, specUpdateCalls, recorderStmt, updateSQL] at h ⊢
    simp [h]

/-- The result and the recorded calls of `insertSequence`. -/
theorem insertSequence_recorder (o : Oracle) (t : String) (s : Int) (log : List Call) :
    insertSequence (recorder o) t s log =
      (o.stepOk (log ++ (specInsertCalls (recorderStmt o log insertSQL) t s).take 3)
          (recorderStmt o log insertSQL),
       log ++ specInsertCalls (recorderStmt o log insertSQL) t s) := by
  unfold insertSequence
  simp [recorder, specInsertCalls, recorderStmt, insertSQL]


/-- C4. `assembleSequence` with a sequence `s ≤ 0` returns true and calls
nothing.  With `s > 0` it prepares `UPDATE sqlite_sequence SET seq = ?1 WHERE
name = ?2`, binds `(s, t)` and steps it; it returns false when that step
fails, true without any further call when the update changed a row, and
otherwise prepares `INSERT INTO sqlite_sequence(name, seq) VALUES(?1, ?2)`,
binds `(t, s)`, steps it and returns the result of that step.  Over the model
of `sqlite_sequence`, when the table holds at most one row named `t`, every
successful call with `s > 0` leaves exactly one row named `t`, with sequence
`s`, and leaves the rows of other names as they were. -/
theorem assembleSequence_protocol (t : String) (s : Int) :
    (∀ (σ : Type) (E : SQLiteBase σ) (a : SQLiteAssembler σ),
        s ≤ 0 → assembleSequence E t s a = (true, a))
      ∧ (∀ (o : Oracle) (a : SQLiteAssembler (List Call)), 0 < s →
          assembleSequence (recorder o) t s a =
            if o.stepOk (a.base ++ (specUpdateCalls (recorderStmt o a.base updateSQL) t s).take 3)
                (recorderStmt o a.base updateSQL) = false
            then (false,
              { a with base := a.base ++ specUpdateCalls (recorderStmt o a.base updateSQL) t s })
            else if 0 < o.changes
                (a.base ++ specUpdateCalls (recorderStmt o a.base updateSQL) t s)
            then (true,
              { a with base := a.base ++ specUpdateCalls (recorderStmt o a.base updateSQL) t s })
            else
              (o.stepOk
                  (a.base ++ specUpdateCalls (recorderStmt o a.base updateSQL) t s
                    ++ (specInsertCalls
                        (recorderStmt o
                          (a.base ++ specUpdateCalls (recorderStmt o a.base updateSQL) t s)
                          insertSQL) t s).take 3)
                  (recorderStmt o
                    (a.base ++ specUpdateCalls (recorderStmt o a.base updateSQL) t s) insertSQL),
                { a with base :=
                    a.base ++ specUpdateCalls (recorderStmt o a.base updateSQL) t s
                      ++ specInsertCalls
                          (recorderStmt o
                            (a.base ++ specUpdateCalls (recorderStmt o a.base updateSQL) t s)
                            insertSQL) t s }))
      ∧ (∀ a : SQLiteAssembler SeqDb, 0 < s →
          (a.base.rows.filter (fun r => r.1 = .cstr t)).length ≤ 1 →
          (assembleSequence seqEngine t s a).1 = true →
          (assembleSequence seqEngine t s a).2.base.rows.filter (fun r => r.1 = .cstr t)
              = [(.cstr t, .int64 s)]
            ∧ (assembleSequence seqEngine t s a).2.base.rows.filter (fun r => r.1 ≠ .cstr t)
              = a.base.rows.filter (fun r => r.1 ≠ .cstr t)) := by
  refine ⟨?_, ?_, ?_⟩
  · intro σ E a hs
    unfold assembleSequence
    rw [if_pos hs]
  · intro o a hs
    have hs' : ¬ s ≤ 0 := by omega
    unfold assembleSequence
    rw [if_neg hs', updateSequence_recorder]
    simp only [insertSequence_recorder]
    by_cases h1 : o.stepOk
        (a.base ++ (specUpdateCalls (recorderStmt o a.base updateSQL) t s).take 3)
        (recorderStmt o a.base updateSQL) = false
    · simp [h1]
    · by_cases h2 : 0 < o.changes
          (a.base ++ specUpdateCalls (recorderStmt o a.base updateSQL) t s)
      · simp [h1, h2]
      · simp [h1, h2]
  · intro a hs hone hok
    exact assembleSequence_seqEngine t s a hs hone hok

/-- C4 at scenario 6 of the spec: `restore_sequence("t", 1000)` over a table
that already holds a row for `t`. -/
theorem assembleSequence_protocol_witness :
    (assembleSequence seqEngine "t" 1000 (SQLiteAssembler.new sampleSeqDb)).2.base.rows.filter
        (fun r => r.1 = .cstr "t")
      = [(.cstr "t", .int64 1000)] :=
  ((assembleSequence_protocol "t" 1000).2.2 (SQLiteAssembler.new sampleSeqDb)
    (by decide) (by decide) (by decide)).1

/-! ### Milestones -/

/-- C5. `markAsMilestone` first calls `lazyCommitOrRollbackTransaction`; it
calls `lazyBeginTransactionImmediate` only when that call returned true, and
it returns true exactly when both returned true.  When the commit step fails
nothing else is called: the engine is left as the commit step left it, and
the result is false. -/
theorem markAsMilestone_steps :
    (∀ (σ : Type) (E : SQLiteBase σ) (a : SQLiteAssembler σ),
        ((markAsMilestone E a).1 = true ↔
          (E.lazyCommitOrRollbackTransaction a.base).1 = true
            ∧ (E.lazyBeginTransactionImmediate
                (E.lazyCommitOrRollbackTransaction a.base).2).1 = true)
          ∧ ((E.lazyCommitOrRollbackTransaction a.base).1 = false →
              markAsMilestone E a
                = (false, { a with base := (E.lazyCommitOrRollbackTransaction a.base).2 }))
          ∧ ((E.lazyCommitOrRollbackTransaction a.base).1 = true →
              (markAsMilestone E a).2
                = { a with base := (E.lazyBeginTransactionImmediate
                      (E.lazyCommitOrRollbackTransaction a.base).2).2 }))
      ∧ (∀ (o : Oracle) (a : SQLiteAssembler (List Call)),
          markAsMilestone (recorder o) a =
            (o.commitOk a.base && o.beginOk (a.base ++ [Call.lazyCommitOrRollbackTransaction]),
              { a with base := a.base ++
                  if o.commitOk a.base
                  then [Call.lazyCommitOrRollbackTransaction, Call.lazyBeginTransactionImmediate]
                  else [Call.lazyCommitOrRollbackTransaction] })) := by
  refine ⟨?_, ?_⟩
  · intro σ E a
    unfold markAsMilestone
    cases h : (E.lazyCommitOrRollbackTransaction a.base).1 <;> simp [h]
  · intro o a
    unfold markAsMilestone
    cases h : o.commitOk a.base <;> simp [recorder, h]


/-! ### Cells whose count differs from the number of columns -/

/-- C7 (as stated) fails: for the two-column table `t(id, v)` a cell with no
value and a cell with three values are both bound and stepped, and
`assembleCell` returns the step's success. -/
theorem assembleCell_count_mismatch_accepted :
    sampleShortCell.values.length ≠ sampleRowidAlias.length
      ∧ sampleLongCell.values.length ≠ sampleRowidAlias.length
      ∧ (assembleCell (recorder (Oracle.succeeding sampleRowidAlias 0)) sampleShortCell
          sampleAssembler).1 = true
      ∧ Call.step (some { id := 3, sql := "INSERT INTO t(rowid, id, v) VALUES(?, ?, ?)" })
          ∈ (assembleCell (recorder (Oracle.succeeding sampleRowidAlias 0)) sampleShortCell
              sampleAssembler).2.base
      ∧ (assembleCell (recorder (Oracle.succeeding sampleRowidAlias 0)) sampleLongCell
          sampleAssembler).1 = true
      ∧ Call.step (some { id := 3, sql := "INSERT INTO t(rowid, id, v) VALUES(?, ?, ?)" })
          ∈ (assembleCell (recorder (Oracle.succeeding sampleRowidAlias 0)) sampleLongCell
              sampleAssembler).2.base := by
  decide

/-- C7 (amended). `assembleCell` never compares the count of the cell with the
number of introspected columns.  Once the insert is prepared it binds
parameter 1 and one parameter per value of the cell, whatever their number,
steps the insert once and returns the result of that step; it returns false
without stepping only when the lazy prepare fails. -/
theorem assembleCell_ignores_count (o : Oracle) (cell : Cell)
    (a b : SQLiteAssembler (List Call))
    (hl : lazyPrepareCell (recorder o) a = (true, b)) (hblob : cell.blobsFit = true) :
    assembleCell (recorder o) cell a
        = (o.stepOk (b.base ++ specBindCalls b.m_cellSTMT b.m_primary cell) b.m_cellSTMT,
            { b with base := b.base ++ specBindCalls b.m_cellSTMT b.m_primary cell
                ++ [Call.step b.m_cellSTMT, Call.reset b.m_cellSTMT] })
      ∧ (specBindCalls b.m_cellSTMT b.m_primary cell).length = cell.values.length + 1
      ∧ (∀ a2 : SQLiteAssembler (List Call), (lazyPrepareCell (recorder o) a2).1 = false →
          assembleCell (recorder o) cell a2 = (false, (lazyPrepareCell (recorder o) a2).2)) :=
  ⟨assembleCell_recorder o cell a b hl hblob, specBindCalls_length _ _ _,
    fun a2 h => assembleCell_unprepared (recorder o) cell a2 h⟩

/-- C7 (amended) at the empty cell of the two-column table. -/
theorem assembleCell_ignores_count_witness :
    (assembleCell (recorder (Oracle.succeeding sampleRowidAlias 0)) sampleShortCell
        sampleAssembler).1 = true :=
  (congrArg Prod.fst
    (assembleCell_ignores_count (Oracle.succeeding sampleRowidAlias 0) sampleShortCell
      sampleAssembler
      (lazyPrepareCell (recorder (Oracle.succeeding sampleRowidAlias 0)) sampleAssembler).2
      rfl (by decide)).1).trans rfl

/-! ### Tables without columns -/

/-- C9 (as stated) fails: when the pragma completes with no row,
`getColumnNames` and `getAssembleSQL` succeed, the insert text
`INSERT INTO t(rowid) VALUES(?)` is produced, and `assembleCell` returns true
when the engine accepts it. -/
theorem zero_columns_accepted :
    (Oracle.succeeding [] 0).tableInfo [Call.prepare "PRAGMA table_info(t)"]
        { id := 0, sql := "PRAGMA table_info(t)" } = { rows := [], done := true }
      ∧ (getColumnNames (recorder (Oracle.succeeding [] 0)) "t" sampleAssembler).1 = (true, [])
      ∧ (getAssembleSQL (recorder (Oracle.succeeding [] 0)) "t" sampleAssembler).1
          = (true, "INSERT INTO t(rowid) VALUES(?)")
      ∧ (assembleCell (recorder (Oracle.succeeding [] 0)) sampleShortCell sampleAssembler).1
          = true := by
  decide

/-- C9 (amended). When the table-info pragma runs to completion with zero
rows, `getColumnNames` succeeds with the empty list and sets `m_primary` to
-1, `getAssembleSQL` succeeds with `INSERT INTO t(rowid) VALUES(?)` (or the
`OR IGNORE` form), and `assembleCell` returns false only if preparing or
stepping that insert fails. -/
theorem zero_columns_template (o : Oracle) (a : SQLiteAssembler (List Call)) (cell : Cell)
    (stmt : Stmt) (s1 s2 : List Call)
    (hnone : a.m_cellSTMT = none)
    (hp : (recorder o).prepare ("PRAGMA table_info(" ++ a.m_table ++ ")") a.base
      = (some stmt, s1))
    (hr : (recorder o).stepRows stmt s1 = ({ rows := [], done := true }, s2))
    (hblob : cell.blobsFit = true) :
    (getColumnNames (recorder o) a.m_table a).1 = (true, [])
      ∧ (getColumnNames (recorder o) a.m_table a).2.m_primary = -1
      ∧ (getAssembleSQL (recorder o) a.m_table a).1
          = (true, (if a.m_duplicated then "INSERT OR IGNORE INTO " else "INSERT INTO ")
              ++ a.m_table ++ "(rowid) VALUES(?)")
      ∧ (lazyPrepareCell (recorder o) a).1
          = (o.prepareId (s2 ++ [Call.finalize (some stmt)])
              ((if a.m_duplicated then "INSERT OR IGNORE INTO " else "INSERT INTO ")
                ++ a.m_table ++ "(rowid) VALUES(?)")).isSome
      ∧ (assembleCell (recorder o) cell a).1
          = ((lazyPrepareCell (recorder o) a).1
              && o.stepOk
                  ((lazyPrepareCell (recorder o) a).2.base
                    ++ specBindCalls (lazyPrepareCell (recorder o) a).2.m_cellSTMT
                        (lazyPrepareCell (recorder o) a).2.m_primary cell)
                  (lazyPrepareCell (recorder o) a).2.m_cellSTMT) := by
  have hsql : specInsertSQL a.m_duplicated a.m_table (columnNamesOf [])
      = (if a.m_duplicated then "INSERT OR IGNORE INTO " else "INSERT INTO ")
          ++ a.m_table ++ "(rowid) VALUES(?)" := by
    have h1 : ("(rowid) VALUES(?)" : String) = "(" ++ ("rowid" ++ (") VALUES(" ++ ("?" ++ ")"))) := by
      decide
    simp only [specInsertSQL, columnNamesOf, List.map_nil, List.length_nil, Nat.zero_add,
      List.replicate_one, String.intercalate, String.intercalate.go, String.append_assoc, h1]
  have hg := getColumnNames_done (recorder o) a.m_table a stmt [] s1 s2 hp hr
  have hs := getAssembleSQL_done (recorder o) a.m_table a stmt [] s1 s2 hp hr
  have hf := lazyPrepareCell_fresh (recorder o) a stmt [] s1 s2 hnone hp hr
  rw [hsql] at hs hf
  refine ⟨by rw [hg]; rfl, by rw [hg]; rfl, by rw [hs], ?_, ?_⟩
  · rw [hf]
    simp [recorder]
  · cases hl : (lazyPrepareCell (recorder o) a).1
    · rw [assembleCell_unprepared (recorder o) cell a hl]
      rfl
    · have hl2 : lazyPrepareCell (recorder o) a = (true, (lazyPrepareCell (recorder o) a).2) := by
        rw [← hl]
      rw [assembleCell_recorder o cell a _ hl2 hblob]
      simp

/-- C9 (amended) at the table without columns. -/
theorem zero_columns_template_witness :
    (getAssembleSQL (recorder (Oracle.succeeding [] 0)) "t" sampleAssembler).1
      = (true, "INSERT INTO t(rowid) VALUES(?)") :=
  (zero_columns_template (Oracle.succeeding [] 0) sampleAssembler sampleShortCell
    { id := 0, sql := "PRAGMA table_info(t)" }
    [Call.prepare "PRAGMA table_info(t)"]
    [Call.prepare "PRAGMA table_info(t)",
      Call.stepRows { id := 0, sql := "PRAGMA table_info(t)" }]
    rfl (by decide) (by decide) (by decide)).2.2.1


/-! ### The declared type of the key column -/

/-- The loop computes `primary` and `maxpk` from the tags alone. -/
theorem loop_type_blind (rows rows2 : List TableInfoRow) (acc acc2 : List String × Int × Int)
    (hpk : rows.map (fun r => r.pk) = rows2.map (fun r => r.pk))
    (hlen : acc.1.length = acc2.1.length) (hacc : acc.2 = acc2.2) :
    (getColumnNamesLoop rows acc).2 = (getColumnNamesLoop rows2 acc2).2 := by
  induction rows generalizing rows2 acc acc2 with
  | nil =>
    cases rows2 with
    | nil => simpa [getColumnNamesLoop] using hacc
    | cons r2 rs2 => simp at hpk
  | cons r rs ih =>
    cases rows2 with
    | nil => simp at hpk
    | cons r2 rs2 =>
      simp only [List.map_cons, List.cons.injEq] at hpk
      simp only [getColumnNamesLoop]
      apply ih
      · exact hpk.2
      · simp [hlen]
      · simp [hpk.1, hlen, hacc]

/-- Tables with the same tags get the same primary index. -/
theorem introspectedPrimary_type_blind (rows rows2 : List TableInfoRow)
    (hpk : rows.map (fun r => r.pk) = rows2.map (fun r => r.pk)) :
    introspectedPrimary rows = introspectedPrimary rows2 := by
  unfold introspectedPrimary
  rw [loop_type_blind rows rows2 ([], -1, 0) ([], -1, 0) hpk rfl rfl]

/-- A primary index `k` names a column tagged 1 in a table without larger tag. -/
theorem introspectedPrimary_index (rows : List TableInfoRow) (hlen : rows.length < 2 ^ 31)
    (k : Nat) (h : introspectedPrimary rows = (k : Int)) :
    (∃ r : TableInfoRow, rows[k]? = some r ∧ r.pk = 1) ∧ ∀ x ∈ rows, x.pk ≤ 1 := by
  by_cases hs : (∃ r ∈ rows, r.pk = 1) ∧ ∀ r ∈ rows, r.pk ≤ 1
  · obtain ⟨k2, r, hk, hr, _, hres⟩ := introspectedPrimary_last rows hlen hs
    rw [h] at hres
    have : k = k2 := by exact_mod_cast hres
    subst this
    exact ⟨⟨r, hk, hr⟩, hs.2⟩
  · have := introspectedPrimary_none rows hs
    rw [h] at this
    omega

/-- C10 (as stated) fails: for `t(k TEXT PRIMARY KEY, v REAL)` the primary
index is 0, the index of the TEXT column, and a Null in that column is bound
to the row id. -/
theorem text_key_substituted :
    sampleTextKey[0]? = some { name := some "k", decltype := "TEXT", pk := 1 }
      ∧ (getColumnNames (recorder (Oracle.succeeding sampleTextKey 0)) "t"
          sampleAssembler).2.m_primary = 0
      ∧ sampleCell.values[0]? = some Value.Null
      ∧ (assembleCell (recorder (Oracle.succeeding sampleTextKey 0)) sampleCell
          sampleAssembler).2.base[5]?
          = some (Call.bind (some { id := 3, sql := "INSERT INTO t(rowid, k, v) VALUES(?, ?, ?)" })
              2 (.int64 42)) := by
  decide

/-- C10 (amended). `getColumnNames` never reads the declared type: the value
it gives `m_primary` is a function of the primary-key tags alone.  It is a
column index `k` only when column `k` carries tag 1 and no column carries a
larger tag; and for a table whose only primary-key column is column `k`,
whatever its declared type, it is `k`, so that a Null at `k` is bound to the
row id. -/
theorem primary_index_ignores_type (o : Oracle) (a : SQLiteAssembler (List Call)) (cell : Cell)
    (stmt : Stmt) (rows : List TableInfoRow) (s1 s2 : List Call)
    (hnone : a.m_cellSTMT = none)
    (hp : (recorder o).prepare ("PRAGMA table_info(" ++ a.m_table ++ ")") a.base
      = (some stmt, s1))
    (hr : (recorder o).stepRows stmt s1 = ({ rows := rows, done := true }, s2))
    (hlen : rows.length < 2 ^ 31) (hblob : cell.blobsFit = true) :
    (getColumnNames (recorder o) a.m_table a).2.m_primary = introspectedPrimary rows
      ∧ (∀ rows2 : List TableInfoRow,
          rows2.map (fun r => r.pk) = rows.map (fun r => r.pk) →
          introspectedPrimary rows2 = introspectedPrimary rows)
      ∧ (∀ k : Nat, (getColumnNames (recorder o) a.m_table a).2.m_primary = (k : Int) →
          (∃ r : TableInfoRow, rows[k]? = some r ∧ r.pk = 1) ∧ ∀ x ∈ rows, x.pk ≤ 1)
      ∧ (∀ (k : Nat) (r : TableInfoRow), rows[k]? = some r → r.pk = 1 →
          (∀ (j : Nat) (x : TableInfoRow), j ≠ k → rows[j]? = some x → x.pk ≤ 0) →
          (getColumnNames (recorder o) a.m_table a).2.m_primary = (k : Int)
            ∧ ∀ b : SQLiteAssembler (List Call), lazyPrepareCell (recorder o) a = (true, b) →
                cell.values[k]? = some Value.Null →
                (assembleCell (recorder o) cell a).2.base[b.base.length + (k + 1)]?
                  = some (Call.bind b.m_cellSTMT ((k : Int) + 2) (.int64 cell.rowID))) := by
  have hg := getColumnNames_done (recorder o) a.m_table a stmt rows s1 s2 hp hr
  have hfresh := lazyPrepareCell_fresh (recorder o) a stmt rows s1 s2 hnone hp hr
  rw [hg]
  refine ⟨rfl, ?_, ?_, ?_⟩
  · intro rows2 h
    exact introspectedPrimary_type_blind rows2 rows h
  · intro k hk
    exact introspectedPrimary_index rows hlen k hk
  · intro k r hk hr1 hother
    have hprim := introspectedPrimary_single rows hlen k r hk hr1 hother
    refine ⟨hprim, ?_⟩
    intro b hl hnull
    have hb : b.m_primary = (k : Int) := by
      rw [hfresh] at hl
      have := congrArg (fun x => x.2.m_primary) hl
      simp only at this
      rw [← this]
      exact hprim
    rw [assembleCell_recorder o cell a b hl hblob]
    have := log_getElem_binds b.base (specBindCalls b.m_cellSTMT b.m_primary cell)
      [Call.step b.m_cellSTMT, Call.reset b.m_cellSTMT] (k + 1) _
      (specBindCalls_getElem b.m_cellSTMT b.m_primary cell k Value.Null hnull)
    rw [this]
    simp [specBinding, hb]

/-- C10 (amended) at `t(k TEXT PRIMARY KEY, v REAL)`: the primary index is 0. -/
theorem primary_index_ignores_type_witness :
    (getColumnNames (recorder (Oracle.succeeding sampleTextKey 0)) "t" sampleAssembler).2.m_primary
      = ((0 : Nat) : Int) :=
  ((primary_index_ignores_type (Oracle.succeeding sampleTextKey 0) sampleAssembler sampleCell
    { id := 0, sql := "PRAGMA table_info(t)" } sampleTextKey
    [Call.prepare "PRAGMA table_info(t)"]
    [Call.prepare "PRAGMA table_info(t)",
      Call.stepRows { id := 0, sql := "PRAGMA table_info(t)" }]
    rfl (by decide) (by decide) (by decide) (by decide)).2.2.2 0
    { name := some "k", decltype := "TEXT", pk := 1 } (by decide) (by decide)
    (by
      intro j x hj hx
      match j, hj, hx with
      | 1, _, hx =>
        simp only [sampleTextKey, List.getElem?_cons_succ, List.getElem?_cons_zero,
          Option.some.injEq] at hx
        rw [← hx]
      | j + 2, _, hx => simp [sampleTextKey] at hx)).1

/-! ### Duplicated mode -/

/-- What `markAsAssembled` does on the recording engine: it issues, in order, the
finalize of the cached statement, the drop of the marker table, the
transaction helper and the close; it leaves no table name and no cached
statement; and it returns true exactly when both the drop and the transaction
helper returned true. -/
theorem markAsAssembled_calls (o : Oracle) (a : SQLiteAssembler (List Call)) :
    (markAsAssembled (recorder o) a).2.base
        = a.base ++ [Call.finalize a.m_cellSTMT,
            Call.execute "DROP TABLE IF EXISTS wcdb_dummy_sqlite_sequence" none,
            Call.lazyCommitOrRollbackTransaction, Call.closeBase]
      ∧ (markAsAssembled (recorder o) a).2.m_cellSTMT = none
      ∧ (markAsAssembled (recorder o) a).2.m_table = ""
      ∧ ((markAsAssembled (recorder o) a).1 = true ↔
          o.executeOk (a.base ++ [Call.finalize a.m_cellSTMT])
              "DROP TABLE IF EXISTS wcdb_dummy_sqlite_sequence" none = true
            ∧ o.commitOk (a.base ++ [Call.finalize a.m_cellSTMT,
                Call.execute "DROP TABLE IF EXISTS wcdb_dummy_sqlite_sequence" none]) = true) := by
  refine ⟨?_, rfl, rfl, ?_⟩
  · simp [markAsAssembled, finalizeCell, markSequenceAsAssembled, close, recorder]
  · simp [markAsAssembled, finalizeCell, markSequenceAsAssembled, close, recorder, and_comm]

/-- If the transaction helper reports a rollback as a failure, a successful
`markAsAssembled` leaves no marker table. -/
theorem markAsAssembled_marker_dropped (a : SQLiteAssembler TxnDb)
    (h : (markAsAssembled (txnEngine false) a).1 = true) :
    (markAsAssembled (txnEngine false) a).2.base.marker = false := by
  unfold markAsAssembled at h ⊢
  cases hs : a.base.saved with
  | none =>
    simp [txnEngine, finalizeCell, markSequenceAsAssembled, close, TxnDb.commitOrRollback, hs]
  | some m =>
    cases hl : a.base.latched
    · simp [txnEngine, finalizeCell, markSequenceAsAssembled, close, TxnDb.commitOrRollback,
        hs, hl]
    · simp [txnEngine, finalizeCell, markSequenceAsAssembled, close, TxnDb.commitOrRollback,
        hs, hl] at h

/-- If the transaction helper reports a rollback as a success, `markAsAssembled`
can return true with the marker table back in place. -/
theorem markAsAssembled_marker_restored :
    (markAsAssembled (txnEngine true) (SQLiteAssembler.new sampleTxnDb)).1 = true
      ∧ (markAsAssembled (txnEngine true) (SQLiteAssembler.new sampleTxnDb)).2.base.marker
          = true := by
  decide

/-! ### Sequences of operations -/

/-- Quiet continuations compose. -/
theorem ExtendsQuietly.trans {l m n : List Call} (h1 : ExtendsQuietly l m)
    (h2 : ExtendsQuietly m n) : ExtendsQuietly l n := by
  obtain ⟨s1, rfl, hs1⟩ := h1
  obtain ⟨s2, rfl, hs2⟩ := h2
  refine ⟨s1 ++ s2, by simp, ?_⟩
  intro c hc
  rcases List.mem_append.1 hc with h | h
  · exact hs1 c h
  · exact hs2 c h

end WCDB.Repair
